import Mathlib

/-!
Verification of the application shell of the Korean grammar museum app
(`src/App.tsx`): screen routing, local persistence of saved grammar and
study statistics, the study-time ticker and the quiz-stats aggregator.

The TypeScript component is embedded shallowly: each React state variable
becomes a field of `AppState`, each callback becomes a pure function on
that state, and the `useEffect` blocks become explicit load/persist
operations over a modelled key-value store.  JavaScript numbers are
modelled as `Int` (all arithmetic in the shell is integer addition and
`Math.max`, exact on JS numbers in the relevant range).
-/

namespace KoreanMagic

/-- The `ScreenType` union from `App.tsx` line 11:
`'welcome' | 'entrance' | 'rooms' | 'notebook' | 'progress' | 'games'`. -/
inductive ScreenType where
  | welcome
  | entrance
  | rooms
  | notebook
  | progress
  | games
deriving DecidableEq

/-- Modelled from the spec: `GrammarLevel` (declared in `src/types/grammar`,
not part of the sources) is "an opaque external enumerated value
(e.g. beginner/intermediate/advanced)". -/
inductive GrammarLevel where
  | beginner
  | intermediate
  | advanced
deriving DecidableEq

/-- Modelled from the spec: `GrammarPoint` (declared in `src/types/grammar`,
not part of the sources) is "an external record type with at least a stable
unique identifier field (`id`)"; the shell never inspects anything beyond
`id`, so the remaining fields are collapsed into one opaque `content`
payload. -/
structure GrammarPoint where
  id : String
  content : String
deriving DecidableEq

/-- The `quizStats` record from the `studyStats` state initialiser
(`App.tsx` lines 17-21). -/
structure QuizStats where
  correct : Int
  total : Int
  streak : Int
  bestStreak : Int
deriving DecidableEq

/-- The `studyStats` state shape (`App.tsx` lines 17-21). -/
structure StudyStats where
  quizStats : QuizStats
  studyTime : Int
  grammarMastered : Int
deriving DecidableEq

/-- The whole state owned by the `App` component (`App.tsx` lines 14-21):
`currentScreen`, `selectedLevel`, `savedGrammar`, `studyStats`. -/
structure AppState where
  currentScreen : ScreenType
  selectedLevel : Option GrammarLevel
  savedGrammar : List GrammarPoint
  studyStats : StudyStats
deriving DecidableEq

/-- Initial `quizStats`: `{ correct: 0, total: 0, streak: 0, bestStreak: 0 }`
(`App.tsx` line 18). -/
def initialQuizStats : QuizStats :=
  { correct := 0, total := 0, streak := 0, bestStreak := 0 }

/-- Initial `studyStats` (`App.tsx` lines 17-21). -/
def initialStudyStats : StudyStats :=
  { quizStats := initialQuizStats, studyTime := 0, grammarMastered := 0 }

/-- The initial component state (`App.tsx` lines 14-21): screen `welcome`,
no level selected, no saved grammar, zeroed stats. -/
def initialAppState : AppState :=
  { currentScreen := ScreenType.welcome
    selectedLevel := none
    savedGrammar := []
    studyStats := initialStudyStats }

/-- `handleScreenChange` (`App.tsx` lines 59-61): `setCurrentScreen(screen)`. -/
def handleScreenChange (screen : ScreenType) (s : AppState) : AppState :=
  { s with currentScreen := screen }

/-- `handleLevelSelect` (`App.tsx` lines 63-66):
`setSelectedLevel(level); setCurrentScreen('rooms')`. -/
def handleLevelSelect (level : GrammarLevel) (s : AppState) : AppState :=
  { s with selectedLevel := some level, currentScreen := ScreenType.rooms }

/-- The updater passed to `setSavedGrammar` in `handleSaveGrammar`
(`App.tsx` lines 68-76): look up `prev.find(g => g.id === grammar.id)`;
append `grammar` when absent, return `prev` unchanged when present. -/
def saveGrammarList (grammar : GrammarPoint) (prev : List GrammarPoint) :
    List GrammarPoint :=
  match prev.find? (fun g => g.id == grammar.id) with
  | none => prev ++ [grammar]
  | some _ => prev

/-- `handleSaveGrammar` (`App.tsx` lines 68-76) lifted to the whole state. -/
def handleSaveGrammar (grammar : GrammarPoint) (s : AppState) : AppState :=
  { s with savedGrammar := saveGrammarList grammar s.savedGrammar }

/-- The updater passed to `setStudyStats` in `handleQuizComplete`
(`App.tsx` lines 78-88): spread `prev`, replacing `quizStats` with
`correct: prev.correct + correct`, `total: prev.total + total`,
`streak: correct === total ? prev.streak + correct : 0`,
`bestStreak: Math.max(prev.bestStreak, prev.streak)`. -/
def recordQuizResult (correct total : Int) (prev : StudyStats) : StudyStats :=
  { prev with
    quizStats :=
      { correct := prev.quizStats.correct + correct
        total := prev.quizStats.total + total
        streak := if correct = total then prev.quizStats.streak + correct else 0
        bestStreak := max prev.quizStats.bestStreak prev.quizStats.streak } }

/-- `handleQuizComplete` (`App.tsx` lines 78-88) lifted to the whole state.
`handleGameComplete` (lines 90-92) delegates to it verbatim. -/
def handleQuizComplete (correct total : Int) (s : AppState) : AppState :=
  { s with studyStats := recordQuizResult correct total s.studyStats }

/-- The updater the study-time interval runs once per second while
`currentScreen === 'rooms'` (`App.tsx` lines 49-54):
spread `prev`, replacing `studyTime` with `prev.studyTime + 1`. -/
def tickStudyTime (prev : StudyStats) : StudyStats :=
  { prev with studyTime := prev.studyTime + 1 }

/-- One firing of the study-time ticker lifted to the whole state. -/
def tickState (s : AppState) : AppState :=
  { s with studyStats := tickStudyTime s.studyStats }

/-- `getTotalGrammarCount` (`App.tsx` lines 95-98): sums the fixed table
`{ beginner: 2, intermediate: 50, advanced: 1 }`. -/
def getTotalGrammarCount : Int := 2 + 50 + 1

/-- `getAllGrammarPoints` (`App.tsx` lines 101-105): returns the saved
grammar list verbatim. -/
def getAllGrammarPoints (s : AppState) : List GrammarPoint :=
  s.savedGrammar

/-- The props handed to the `StudyProgress` leaf when the `progress` screen
renders (`App.tsx` lines 175-180). -/
structure StudyProgressProps where
  quizStats : QuizStats
  studyTime : Int
  grammarMastered : Int
  totalGrammar : Int
deriving DecidableEq

/-- The render-time computation of `StudyProgress`'s props (`App.tsx`
lines 175-180): `quizStats={studyStats.quizStats}`,
`studyTime={studyStats.studyTime}`, `grammarMastered={savedGrammar.length}`,
`totalGrammar={getTotalGrammarCount()}`. -/
def studyProgressProps (s : AppState) : StudyProgressProps :=
  { quizStats := s.studyStats.quizStats
    studyTime := s.studyStats.studyTime
    grammarMastered := s.savedGrammar.length
    totalGrammar := getTotalGrammarCount }

/-! ## Persistence layer

`App.tsx` persists `savedGrammar` and `studyStats` to `localStorage` as JSON
text (effects at lines 37-43) and loads them back on startup (effect at
lines 24-34).  `localStorage` is modelled as an association list of string
keys to string values.  `JSON.parse` is modelled by an executable
recursive-descent parser `jsonParse` over the JSON value grammar
(restricted to the constructs the shell ever stores: no whitespace
handling, integer numbers without fraction/exponent, string escapes for
quote and backslash only — the exact sublanguage `JSON.stringify` emits
for this data).  `JSON.stringify` applied to the `savedGrammar` array and
the `studyStats` record is modelled by the concrete printers below, which
produce exactly the text the platform function produces for those values,
field order included. -/

/-- The double-quote character. -/
def qc : Char := Char.ofNat 34

/-- The backslash character. -/
def bs : Char := Char.ofNat 92

/-- The opening-brace character. -/
def lbrace : Char := Char.ofNat 123

/-- The closing-brace character. -/
def rbrace : Char := Char.ofNat 125

/-- JSON documents: the values `JSON.parse` produces and `JSON.stringify`
consumes. -/
inductive Json where
  | jnull
  | jbool (b : Bool)
  | jnum (n : Int)
  | jstr (s : String)
  | jarr (elems : List Json)
  | jobj (members : List (String × Json))

/-- JSON string escaping as performed by `JSON.stringify`: quote and
backslash get a backslash escape (control-character escapes are omitted;
nothing in the claims stores control characters). -/
def escapeChar (c : Char) : List Char :=
  if c = qc then [bs, qc]
  else if c = bs then [bs, bs]
  else [c]

/-- Escape a whole string body. -/
def escapeChars (s : List Char) : List Char :=
  (s.map escapeChar).flatten

/-- A JSON string literal: quote, escaped body, quote. -/
def stringifyString (s : String) : List Char :=
  qc :: (escapeChars s.data ++ [qc])

/-- Decimal digits of a natural number, as printed by `JSON.stringify`. -/
def natChars (n : Nat) : List Char := Nat.toDigits 10 n

/-- A JSON number literal for an integer value. -/
def intChars (i : Int) : List Char :=
  if i < 0 then '-' :: natChars i.natAbs else natChars i.natAbs

/-- `JSON.stringify` of one `GrammarPoint` record: an object literal with
the fields in declaration order. -/
def stringifyPoint (p : GrammarPoint) : List Char :=
  lbrace :: (stringifyString "id" ++ ':' :: stringifyString p.id ++
    ',' :: stringifyString "content" ++ ':' :: stringifyString p.content ++
    [rbrace])

/-- The comma-separated element list of `JSON.stringify(savedGrammar)`. -/
def stringifySavedElems : List GrammarPoint → List Char
  | [] => []
  | [p] => stringifyPoint p
  | p :: ps => stringifyPoint p ++ ',' :: stringifySavedElems ps

/-- `JSON.stringify(savedGrammar)` (`App.tsx` line 38): the JSON array
text for the saved grammar list. -/
def stringifySaved (l : List GrammarPoint) : String :=
  String.mk ('[' :: (stringifySavedElems l ++ [']']))

/-- `JSON.stringify(studyStats)` (`App.tsx` line 42): the JSON object text
for the stats record, fields in declaration order. -/
def stringifyStats (st : StudyStats) : String :=
  String.mk
    (lbrace :: (stringifyString "quizStats" ++ ':' ::
      lbrace :: (stringifyString "correct" ++ ':' :: intChars st.quizStats.correct ++
        ',' :: stringifyString "total" ++ ':' :: intChars st.quizStats.total ++
        ',' :: stringifyString "streak" ++ ':' :: intChars st.quizStats.streak ++
        ',' :: stringifyString "bestStreak" ++ ':' :: intChars st.quizStats.bestStreak ++
        [rbrace]) ++
      ',' :: stringifyString "studyTime" ++ ':' :: intChars st.studyTime ++
      ',' :: stringifyString "grammarMastered" ++ ':' :: intChars st.grammarMastered ++
      [rbrace]))

/-- Body of a JSON string literal after the opening quote: consume
characters (resolving backslash escapes) up to the closing quote, returning
the decoded body and the remaining input. -/
def parseStringBody : List Char → Option (List Char × List Char)
  | [] => none
  | c :: rest =>
    if c = qc then some ([], rest)
    else if c = bs then
      match rest with
      | [] => none
      | e :: rest2 =>
        if e = qc ∨ e = bs then
          (parseStringBody rest2).map (fun p => (e :: p.1, p.2))
        else none
    else (parseStringBody rest).map (fun p => (c :: p.1, p.2))

/-- Maximal run of decimal digits, accumulating their value. -/
def parseDigits : List Char → Nat → Nat × List Char
  | [], acc => (acc, [])
  | c :: rest, acc =>
    if c.isDigit then parseDigits rest (acc * 10 + (c.toNat - 48))
    else (acc, c :: rest)

/-- A JSON number literal: optional minus sign then at least one digit
(fractions and exponents are outside the stored sublanguage). -/
def parseNumber : List Char → Option (Json × List Char)
  | [] => none
  | c :: rest =>
    if c = '-' then
      match rest with
      | [] => none
      | d :: rest2 =>
        if d.isDigit then
          let p := parseDigits (d :: rest2) 0
          some (Json.jnum (-(p.1 : Int)), p.2)
        else none
    else if c.isDigit then
      let p := parseDigits (c :: rest) 0
      some (Json.jnum (p.1 : Int), p.2)
    else none

/-- What the recursive-descent core is currently parsing: a value, the tail
of an array element list, or the tail of an object member list. -/
inductive PMode where
  | val
  | elems
  | members

/-- Result of one core parse: a value, an element list, or a member list. -/
inductive PRes where
  | v (j : Json)
  | es (l : List Json)
  | ms (l : List (String × Json))

/-- One step of the recursive-descent parser, abstracted over the
recursive call so that the fueled recursion below is structural on the
fuel (and hence kernel-reducible). -/
def parseCoreStep (rec : PMode → List Char → Option (PRes × List Char)) :
    PMode → List Char → Option (PRes × List Char)
  | PMode.val, cs =>
    match cs with
    | [] => none
    | c :: rest =>
      if c = 'n' then
        match rest with
        | 'u' :: 'l' :: 'l' :: r => some (PRes.v Json.jnull, r)
        | _ => none
      else if c = 't' then
        match rest with
        | 'r' :: 'u' :: 'e' :: r => some (PRes.v (Json.jbool true), r)
        | _ => none
      else if c = 'f' then
        match rest with
        | 'a' :: 'l' :: 's' :: 'e' :: r => some (PRes.v (Json.jbool false), r)
        | _ => none
      else if c = qc then
        (parseStringBody rest).map
          (fun p => (PRes.v (Json.jstr (String.mk p.1)), p.2))
      else if c = '[' then
        match rest with
        | ']' :: r => some (PRes.v (Json.jarr []), r)
        | _ =>
          match rec PMode.elems rest with
          | some (PRes.es l, r) => some (PRes.v (Json.jarr l), r)
          | _ => none
      else if c = lbrace then
        match rest with
        | [] => none
        | r1 :: r2 =>
          if r1 = rbrace then some (PRes.v (Json.jobj []), r2)
          else
            match rec PMode.members rest with
            | some (PRes.ms l, r) => some (PRes.v (Json.jobj l), r)
            | _ => none
      else
        (parseNumber cs).map (fun p => (PRes.v p.1, p.2))
  | PMode.elems, cs =>
    match rec PMode.val cs with
    | some (PRes.v j, rest) =>
      (match rest with
      | ']' :: r => some (PRes.es [j], r)
      | ',' :: r =>
        match rec PMode.elems r with
        | some (PRes.es js, r2) => some (PRes.es (j :: js), r2)
        | _ => none
      | _ => none)
    | _ => none
  | PMode.members, cs =>
    match cs with
    | [] => none
    | c :: rest =>
      if c = qc then
        match parseStringBody rest with
        | none => none
        | some (k, rest1) =>
          match rest1 with
          | ':' :: rest2 =>
            (match rec PMode.val rest2 with
            | some (PRes.v v, rest3) =>
              (match rest3 with
              | [] => none
              | r :: rest4 =>
                if r = rbrace then some (PRes.ms [(String.mk k, v)], rest4)
                else if r = ',' then
                  match rec PMode.members rest4 with
                  | some (PRes.ms ms, rest5) =>
                    some (PRes.ms ((String.mk k, v) :: ms), rest5)
                  | _ => none
                else none)
            | _ => none)
          | _ => none
      else none

/-- The fueled recursive-descent core: structural recursion on the fuel. -/
def parseCore : Nat → PMode → List Char → Option (PRes × List Char)
  | 0, _, _ => none
  | Nat.succ fuel, m, cs => parseCoreStep (parseCore fuel) m cs

/-- `JSON.parse` on a whole input string: parse one value with ample fuel
and require the input to be fully consumed; `none` models the
`SyntaxError` the platform function throws on malformed text. -/
def jsonParse (s : String) : Option Json :=
  match parseCore (2 * s.data.length + 2) PMode.val s.data with
  | some (PRes.v j, []) => some j
  | _ => none

/-- The browser `localStorage`, string keys to string values; a later
`setItem` for a key shadows earlier entries. -/
def LocalStorage := List (String × String)

/-- `localStorage.getItem`. -/
def getItem (st : LocalStorage) (key : String) : Option String :=
  (List.find? (fun kv => kv.1 == key) st).map (fun kv => kv.2)

/-- `localStorage.setItem`. -/
def setItem (st : LocalStorage) (key value : String) : LocalStorage :=
  (key, value) :: st

/-- The storage key for the saved grammar list (`App.tsx` lines 25, 38). -/
def keySaved : String := "korean-grammar-saved"

/-- The storage key for the study statistics (`App.tsx` lines 30, 42). -/
def keyStats : String := "korean-grammar-stats"

/-- The persist effect for `savedGrammar` (`App.tsx` lines 37-39):
`localStorage.setItem('korean-grammar-saved', JSON.stringify(savedGrammar))`. -/
def persistSavedGrammar (l : List GrammarPoint) (st : LocalStorage) :
    LocalStorage :=
  setItem st keySaved (stringifySaved l)

/-- The persist effect for `studyStats` (`App.tsx` lines 41-43). -/
def persistStudyStats (stats : StudyStats) (st : LocalStorage) :
    LocalStorage :=
  setItem st keyStats (stringifyStats stats)

/-- Typed reading of a stored grammar-point document.  The component
assigns the value returned by `JSON.parse` to the typed `savedGrammar`
state without any validation; `none` marks a document whose runtime shape
deviates from `GrammarPoint[]`, which the typed embedding cannot hold. -/
def decodePoint : Json → Option GrammarPoint
  | Json.jobj [(k1, Json.jstr i), (k2, Json.jstr c)] =>
    if k1 = "id" ∧ k2 = "content" then some { id := i, content := c }
    else none
  | _ => none

/-- Typed reading of a list of stored grammar-point documents. -/
def decodePoints : List Json → Option (List GrammarPoint)
  | [] => some []
  | j :: js =>
    match decodePoint j, decodePoints js with
    | some p, some ps => some (p :: ps)
    | _, _ => none

/-- Typed reading of the whole stored saved-grammar document. -/
def decodeSavedGrammar : Json → Option (List GrammarPoint)
  | Json.jarr l => decodePoints l
  | _ => none

/-- Typed reading of a stored `quizStats` document. -/
def decodeQuizStats : Json → Option QuizStats
  | Json.jobj [(k1, Json.jnum c), (k2, Json.jnum t), (k3, Json.jnum s),
      (k4, Json.jnum b)] =>
    if k1 = "correct" ∧ k2 = "total" ∧ k3 = "streak" ∧ k4 = "bestStreak"
    then some { correct := c, total := t, streak := s, bestStreak := b }
    else none
  | _ => none

/-- Typed reading of a stored `studyStats` document. -/
def decodeStudyStats : Json → Option StudyStats
  | Json.jobj [(k1, q), (k2, Json.jnum st), (k3, Json.jnum g)] =>
    (match decodeQuizStats q with
    | some qs =>
      if k1 = "quizStats" ∧ k2 = "studyTime" ∧ k3 = "grammarMastered"
      then some { quizStats := qs, studyTime := st, grammarMastered := g }
      else none
    | none => none)
  | _ => none

/-- Errors of the load effect: `JSON.parse` throwing a `SyntaxError`
aborts the effect (there is no `try`/`catch` around it in `App.tsx`
lines 24-34). -/
inductive LoadError where
  | syntaxError
deriving DecidableEq

/-- First half of the startup load effect (`App.tsx` lines 25-28): read
`'korean-grammar-saved'`; when absent (or the falsy empty string), leave
the state untouched; otherwise `JSON.parse` it — a parse failure throws
out of the effect — and assign the result to `savedGrammar`.  The real
code performs no shape validation on the parsed document; a document that
is not a `GrammarPoint[]` would be installed as-is, which the typed
embedding cannot represent, so that branch leaves the state untouched. -/
def loadSavedStep (st : LocalStorage) (s : AppState) :
    Except LoadError AppState :=
  match getItem st keySaved with
  | none => Except.ok s
  | some text =>
    if text = "" then Except.ok s
    else
      match jsonParse text with
      | none => Except.error LoadError.syntaxError
      | some doc =>
        match decodeSavedGrammar doc with
        | some l => Except.ok { s with savedGrammar := l }
        | none => Except.ok s

/-- Second half of the startup load effect (`App.tsx` lines 30-33), for
`'korean-grammar-stats'`; same conventions as `loadSavedStep`. -/
def loadStatsStep (st : LocalStorage) (s : AppState) :
    Except LoadError AppState :=
  match getItem st keyStats with
  | none => Except.ok s
  | some text =>
    if text = "" then Except.ok s
    else
      match jsonParse text with
      | none => Except.error LoadError.syntaxError
      | some doc =>
        match decodeStudyStats doc with
        | some stats => Except.ok { s with studyStats := stats }
        | none => Except.ok s

/-- The whole startup load effect (`App.tsx` lines 24-34): the saved list
first, then the stats; an exception in the first read aborts the effect
before the second. -/
def loadOnStartup (st : LocalStorage) (s : AppState) :
    Except LoadError AppState :=
  match loadSavedStep st s with
  | Except.error e => Except.error e
  | Except.ok s1 => loadStatsStep st s1

/-- One in-session operation of the shell: a user-triggered navigation, a
level selection, a grammar save, a quiz/game completion (with the spec's
contract `0 ≤ correct ≤ total`), or a firing of the study-time ticker
(possible only while `currentScreen = rooms`, the guard of the interval
effect at `App.tsx` lines 46-57). -/
inductive Step : AppState → AppState → Prop where
  | navigate (screen : ScreenType) (s : AppState) :
      Step s (handleScreenChange screen s)
  | selectLevel (level : GrammarLevel) (s : AppState) :
      Step s (handleLevelSelect level s)
  | saveGrammar (grammar : GrammarPoint) (s : AppState) :
      Step s (handleSaveGrammar grammar s)
  | quizComplete (correct total : Int) (s : AppState)
      (hc : 0 ≤ correct) (ht : correct ≤ total) :
      Step s (handleQuizComplete correct total s)
  | tick (s : AppState) (hr : s.currentScreen = ScreenType.rooms) :
      Step s (tickState s)

/-- States of the shell reachable from the default initial state by
in-session operations. -/
inductive Reachable : AppState → Prop where
  | init : Reachable initialAppState
  | step {s s' : AppState} : Reachable s → Step s s' → Reachable s'

/-- Zero or more in-session operations. -/
inductive Steps : AppState → AppState → Prop where
  | refl (s : AppState) : Steps s s
  | tail {s t u : AppState} : Steps s t → Step t u → Steps s u

/-- The JSON document `JSON.stringify` derives from one `GrammarPoint`. -/
def pointDoc (p : GrammarPoint) : Json :=
  Json.jobj [("id", Json.jstr p.id), ("content", Json.jstr p.content)]

/-- A store whose saved-grammar entry is not valid JSON text. -/
def malformedStore : LocalStorage := [(keySaved, "not-json")]

/-- Applying a whole sequence of saves, oldest first. -/
def saveAll (gs : List GrammarPoint) (S : List GrammarPoint) :
    List GrammarPoint :=
  gs.foldl (fun acc g => saveGrammarList g acc) S

/-! ## Theorems -/

/-- C3: for every prior `quizStats` state and every call
`recordQuizResult(correct, total)` with `0 ≤ correct ≤ total`, the new
`correct` is the old plus `correct`, the new `total` is the old plus
`total`, the new `streak` is the old plus `correct` on a perfect round and
`0` otherwise, and the new `bestStreak` is `max(old bestStreak, old
streak)` with the pre-update streak value. -/
theorem recordQuizResult_aggregation (prev : StudyStats) (correct total : Int)
    (hc : 0 ≤ correct) (ht : correct ≤ total) :
    (recordQuizResult correct total prev).quizStats.correct
        = prev.quizStats.correct + correct ∧
      (recordQuizResult correct total prev).quizStats.total
        = prev.quizStats.total + total ∧
      (recordQuizResult correct total prev).quizStats.streak
        = (if correct = total then prev.quizStats.streak + correct else 0) ∧
      (recordQuizResult correct total prev).quizStats.bestStreak
        = max prev.quizStats.bestStreak prev.quizStats.streak := by
  refine ⟨rfl, rfl, rfl, rfl⟩

/-- Witness for C3 at `prev = initialStudyStats`, `correct = 2`,
`total = 3`. -/
theorem recordQuizResult_aggregation_witness :
    ((0 : Int) ≤ 2 ∧ (2 : Int) ≤ 3) ∧
      ((recordQuizResult 2 3 initialStudyStats).quizStats.correct
          = initialStudyStats.quizStats.correct + 2 ∧
        (recordQuizResult 2 3 initialStudyStats).quizStats.total
          = initialStudyStats.quizStats.total + 3 ∧
        (recordQuizResult 2 3 initialStudyStats).quizStats.streak
          = (if (2 : Int) = 3 then initialStudyStats.quizStats.streak + 2 else 0) ∧
        (recordQuizResult 2 3 initialStudyStats).quizStats.bestStreak
          = max initialStudyStats.quizStats.bestStreak
              initialStudyStats.quizStats.streak) :=
  ⟨by decide,
    recordQuizResult_aggregation initialStudyStats 2 3 (by decide) (by decide)⟩

/-- C9: the `grammarMastered` value fed to the progress display is the
length of the live saved-grammar list, independent of the
`grammarMastered` field stored inside `StudyStats`. -/
theorem studyProgress_grammarMastered_is_live_count (s : AppState)
    (n : Int) :
    (studyProgressProps s).grammarMastered = s.savedGrammar.length ∧
      studyProgressProps
          { s with studyStats := { s.studyStats with grammarMastered := n } }
        = studyProgressProps s := by
  exact ⟨rfl, rfl⟩

/-- C10: `recordQuizResult` changes only the `quizStats` field of
`StudyStats`, and a ticker firing changes only the `studyTime` field. -/
theorem stats_mutators_frame_disjoint (stats : StudyStats)
    (correct total : Int) :
    (recordQuizResult correct total stats).studyTime = stats.studyTime ∧
      (recordQuizResult correct total stats).grammarMastered
        = stats.grammarMastered ∧
      (tickStudyTime stats).quizStats = stats.quizStats ∧
      (tickStudyTime stats).grammarMastered = stats.grammarMastered := by
  exact ⟨rfl, rfl, rfl, rfl⟩

theorem find?_id_eq_none_iff (g : GrammarPoint) (S : List GrammarPoint) :
    S.find? (fun x => x.id == g.id) = none ↔
      g.id ∉ S.map GrammarPoint.id := by
  simp [List.find?_eq_none, List.mem_map]

theorem saveGrammarList_eq_ite (g : GrammarPoint) (S : List GrammarPoint) :
    saveGrammarList g S =
      (if g.id ∈ S.map GrammarPoint.id then S else S ++ [g]) := by
  by_cases hmem : g.id ∈ S.map GrammarPoint.id
  · rw [if_pos hmem]
    unfold saveGrammarList
    cases hf : S.find? (fun x => x.id == g.id) with
    | none => exact absurd hmem ((find?_id_eq_none_iff g S).mp hf)
    | some y => rfl
  · rw [if_neg hmem]
    unfold saveGrammarList
    rw [(find?_id_eq_none_iff g S).mpr hmem]

theorem saveGrammarList_grows (g : GrammarPoint) (S : List GrammarPoint) :
    S <+: saveGrammarList g S := by
  rw [saveGrammarList_eq_ite]
  by_cases hmem : g.id ∈ S.map GrammarPoint.id
  · rw [if_pos hmem]
  · rw [if_neg hmem]
    exact List.prefix_append S [g]

theorem saveGrammarList_nodup (g : GrammarPoint) (S : List GrammarPoint)
    (h : (S.map GrammarPoint.id).Nodup) :
    ((saveGrammarList g S).map GrammarPoint.id).Nodup := by
  rw [saveGrammarList_eq_ite]
  by_cases hmem : g.id ∈ S.map GrammarPoint.id
  · rw [if_pos hmem]; exact h
  · rw [if_neg hmem]
    rw [List.map_append]
    simp only [List.map_cons, List.map_nil]
    rw [List.nodup_append]
    refine ⟨h, List.nodup_singleton _, ?_⟩
    intro a ha hb
    rw [List.mem_singleton] at hb
    exact hmem (hb ▸ ha)

theorem saveAll_cons (g : GrammarPoint) (gs : List GrammarPoint)
    (S : List GrammarPoint) :
    saveAll (g :: gs) S = saveAll gs (saveGrammarList g S) := rfl

theorem saveAll_nodup (gs : List GrammarPoint) (S : List GrammarPoint)
    (h : (S.map GrammarPoint.id).Nodup) :
    ((saveAll gs S).map GrammarPoint.id).Nodup := by
  induction gs generalizing S with
  | nil => exact h
  | cons g gs ih =>
    rw [saveAll_cons]
    exact ih _ (saveGrammarList_nodup g S h)

theorem saveAll_grows (gs : List GrammarPoint) (S : List GrammarPoint) :
    S <+: saveAll gs S := by
  induction gs generalizing S with
  | nil => exact List.prefix_refl S
  | cons g gs ih =>
    rw [saveAll_cons]
    exact (saveGrammarList_grows g S).trans (ih (saveGrammarList g S))

/-- C5: saving a grammar point whose id is already present leaves the
saved list unchanged, otherwise the point is appended at the end; hence,
starting from a duplicate-free list, any sequence of saves keeps the ids
duplicate-free and only ever extends the list (the old list stays a
prefix: nothing is removed or reordered). -/
theorem handleSaveGrammar_dedup_append (g : GrammarPoint)
    (gs : List GrammarPoint) (S : List GrammarPoint)
    (hnd : (S.map GrammarPoint.id).Nodup) :
    saveGrammarList g S =
        (if g.id ∈ S.map GrammarPoint.id then S else S ++ [g]) ∧
      S <+: saveGrammarList g S ∧
      ((saveAll gs S).map GrammarPoint.id).Nodup ∧
      S <+: saveAll gs S :=
  ⟨saveGrammarList_eq_ite g S, saveGrammarList_grows g S,
    saveAll_nodup gs S hnd, saveAll_grows gs S⟩

/-- Witness for C5 at `g = ⟨"a","x"⟩`, `gs = [⟨"a","x"⟩, ⟨"a","y"⟩]`,
`S = []`. -/
theorem handleSaveGrammar_dedup_append_witness :
    ((([] : List GrammarPoint).map GrammarPoint.id).Nodup) ∧
      (saveGrammarList { id := "a", content := "x" } [] =
          (if ("a" : String) ∈ ([] : List GrammarPoint).map GrammarPoint.id
            then [] else [] ++ [{ id := "a", content := "x" }]) ∧
        ([] : List GrammarPoint) <+:
          saveGrammarList { id := "a", content := "x" } [] ∧
        ((saveAll [{ id := "a", content := "x" }, { id := "a", content := "y" }]
            []).map GrammarPoint.id).Nodup ∧
        ([] : List GrammarPoint) <+:
          saveAll [{ id := "a", content := "x" }, { id := "a", content := "y" }]
            []) :=
  ⟨List.nodup_nil,
    handleSaveGrammar_dedup_append { id := "a", content := "x" }
      [{ id := "a", content := "x" }, { id := "a", content := "y" }] []
      List.nodup_nil⟩

theorem step_studyTime_cases {s t : AppState} (h : Step s t) :
    t.studyStats.studyTime = s.studyStats.studyTime ∨
      (s.currentScreen = ScreenType.rooms ∧ t = tickState s) := by
  cases h with
  | navigate screen s => exact Or.inl rfl
  | selectLevel level s => exact Or.inl rfl
  | saveGrammar grammar s => exact Or.inl rfl
  | quizComplete correct total s hc ht => exact Or.inl rfl
  | tick s hr => exact Or.inr ⟨hr, rfl⟩

theorem step_studyTime_le {s t : AppState} (h : Step s t) :
    s.studyStats.studyTime ≤ t.studyStats.studyTime := by
  rcases step_studyTime_cases h with heq | ⟨hr, heq⟩
  · exact le_of_eq heq.symm
  · rw [heq]
    exact le_of_lt (lt_add_one _)

theorem steps_studyTime_le {s u : AppState} (h : Steps s u) :
    s.studyStats.studyTime ≤ u.studyStats.studyTime := by
  induction h with
  | refl => exact le_refl _
  | tail hst hstep ih => exact le_trans ih (step_studyTime_le hstep)

theorem step_bestStreak_le {s t : AppState} (h : Step s t) :
    s.studyStats.quizStats.bestStreak ≤ t.studyStats.quizStats.bestStreak := by
  cases h with
  | navigate screen s => exact le_refl _
  | selectLevel level s => exact le_refl _
  | saveGrammar grammar s => exact le_refl _
  | quizComplete correct total s hc ht =>
    exact le_max_left s.studyStats.quizStats.bestStreak
      s.studyStats.quizStats.streak
  | tick s hr => exact le_refl _

/-- C1 counterexample: the state reached from the default initial state by
`recordQuizResult(1,1)` is reachable and violates
`bestStreak ≥ streak` — the perfect round raises `streak` to `1` while
`bestStreak` is computed from the pre-update streak and stays `0`. -/
theorem bestStreak_ge_streak_counterexample :
    Reachable (handleQuizComplete 1 1 initialAppState) ∧
      (handleQuizComplete 1 1 initialAppState).studyStats.quizStats.bestStreak
        < (handleQuizComplete 1 1 initialAppState).studyStats.quizStats.streak :=
  ⟨Reachable.step Reachable.init
      (Step.quizComplete 1 1 initialAppState (by decide) (by decide)),
    by decide⟩

/-- C1 amended: the aggregation rule of `recordQuizResult` sets
`bestStreak` to `max(old bestStreak, pre-update streak)`, so `bestStreak`
is at least the pre-call streak and no shell operation ever decreases
`bestStreak`; the pointwise invariant `bestStreak ≥ streak` itself fails
at reachable states (see the counterexample). -/
theorem bestStreak_aggregation_amended (s t : AppState)
    (correct total : Int) (hc : 0 ≤ correct) (ht : correct ≤ total)
    (hst : Step s t) :
    (handleQuizComplete correct total s).studyStats.quizStats.bestStreak
        = max s.studyStats.quizStats.bestStreak s.studyStats.quizStats.streak ∧
      s.studyStats.quizStats.streak
        ≤ (handleQuizComplete correct total s).studyStats.quizStats.bestStreak ∧
      s.studyStats.quizStats.bestStreak ≤ t.studyStats.quizStats.bestStreak :=
  ⟨rfl, le_max_right _ _, step_bestStreak_le hst⟩

/-- Witness for the amended C1 at `s` the initial state, the navigation to
`entrance` as the step, and `recordQuizResult(1,1)`. -/
theorem bestStreak_aggregation_amended_witness :
    ((0 : Int) ≤ 1 ∧ (1 : Int) ≤ 1 ∧
        Step initialAppState
          (handleScreenChange ScreenType.entrance initialAppState)) ∧
      ((handleQuizComplete 1 1 initialAppState).studyStats.quizStats.bestStreak
          = max initialAppState.studyStats.quizStats.bestStreak
              initialAppState.studyStats.quizStats.streak ∧
        initialAppState.studyStats.quizStats.streak
          ≤ (handleQuizComplete 1 1 initialAppState).studyStats.quizStats.bestStreak ∧
        initialAppState.studyStats.quizStats.bestStreak
          ≤ (handleScreenChange ScreenType.entrance
              initialAppState).studyStats.quizStats.bestStreak) :=
  ⟨⟨by decide, by decide,
      Step.navigate ScreenType.entrance initialAppState⟩,
    bestStreak_aggregation_amended initialAppState
      (handleScreenChange ScreenType.entrance initialAppState) 1 1
      (by decide) (by decide)
      (Step.navigate ScreenType.entrance initialAppState)⟩

/-- C4: a ticker firing increments `studyTime` by exactly `1`; every shell
operation either leaves `studyTime` unchanged or is a ticker firing on the
`rooms` screen (so no firing occurs on any other screen); and `studyTime`
is monotonically non-decreasing along any sequence of shell operations. -/
theorem studyTime_ticker_gating (s t u : AppState) (hst : Step s t)
    (hsu : Steps s u) :
    (tickState s).studyStats.studyTime = s.studyStats.studyTime + 1 ∧
      (t.studyStats.studyTime = s.studyStats.studyTime ∨
        (s.currentScreen = ScreenType.rooms ∧ t = tickState s)) ∧
      s.studyStats.studyTime ≤ u.studyStats.studyTime :=
  ⟨rfl, step_studyTime_cases hst, steps_studyTime_le hsu⟩

/-- Witness for C4 on the `rooms` screen reached by selecting the beginner
level, with one ticker firing. -/
theorem studyTime_ticker_gating_witness :
    (Step (handleLevelSelect GrammarLevel.beginner initialAppState)
        (tickState (handleLevelSelect GrammarLevel.beginner initialAppState)) ∧
      Steps (handleLevelSelect GrammarLevel.beginner initialAppState)
        (tickState (handleLevelSelect GrammarLevel.beginner initialAppState))) ∧
      ((tickState (handleLevelSelect GrammarLevel.beginner
            initialAppState)).studyStats.studyTime
          = (handleLevelSelect GrammarLevel.beginner
              initialAppState).studyStats.studyTime + 1 ∧
        ((tickState (handleLevelSelect GrammarLevel.beginner
              initialAppState)).studyStats.studyTime
            = (handleLevelSelect GrammarLevel.beginner
                initialAppState).studyStats.studyTime ∨
          ((handleLevelSelect GrammarLevel.beginner
              initialAppState).currentScreen = ScreenType.rooms ∧
            tickState (handleLevelSelect GrammarLevel.beginner initialAppState)
              = tickState (handleLevelSelect GrammarLevel.beginner
                  initialAppState))) ∧
        (handleLevelSelect GrammarLevel.beginner
            initialAppState).studyStats.studyTime
          ≤ (tickState (handleLevelSelect GrammarLevel.beginner
              initialAppState)).studyStats.studyTime) :=
  ⟨⟨Step.tick (handleLevelSelect GrammarLevel.beginner initialAppState) rfl,
      Steps.tail
        (Steps.refl (handleLevelSelect GrammarLevel.beginner initialAppState))
        (Step.tick (handleLevelSelect GrammarLevel.beginner initialAppState)
          rfl)⟩,
    studyTime_ticker_gating
      (handleLevelSelect GrammarLevel.beginner initialAppState)
      (tickState (handleLevelSelect GrammarLevel.beginner initialAppState))
      (tickState (handleLevelSelect GrammarLevel.beginner initialAppState))
      (Step.tick (handleLevelSelect GrammarLevel.beginner initialAppState) rfl)
      (Steps.tail
        (Steps.refl (handleLevelSelect GrammarLevel.beginner initialAppState))
        (Step.tick (handleLevelSelect GrammarLevel.beginner initialAppState)
          rfl))⟩

/-- C6: at every reachable state, `quizStats.correct ≤ quizStats.total`,
given the spec's precondition `0 ≤ correct ≤ total` on every
`recordQuizResult` call. -/
theorem quiz_correct_le_total (s : AppState) (h : Reachable s) :
    s.studyStats.quizStats.correct ≤ s.studyStats.quizStats.total := by
  induction h with
  | init => exact le_refl 0
  | step hr hstep ih =>
    cases hstep with
    | navigate screen s => exact ih
    | selectLevel level s => exact ih
    | saveGrammar grammar s => exact ih
    | quizComplete correct total s hc ht => exact add_le_add ih ht
    | tick s hrr => exact ih

/-- Witness for C6 at the reachable state after `recordQuizResult(2,3)`. -/
theorem quiz_correct_le_total_witness :
    Reachable (handleQuizComplete 2 3 initialAppState) ∧
      (handleQuizComplete 2 3 initialAppState).studyStats.quizStats.correct
        ≤ (handleQuizComplete 2 3 initialAppState).studyStats.quizStats.total :=
  ⟨Reachable.step Reachable.init
      (Step.quizComplete 2 3 initialAppState (by decide) (by decide)),
    quiz_correct_le_total (handleQuizComplete 2 3 initialAppState)
      (Reachable.step Reachable.init
        (Step.quizComplete 2 3 initialAppState (by decide) (by decide)))⟩

/-- C2: evaluating the startup load at a store whose
`'korean-grammar-saved'` entry is not valid JSON text: `JSON.parse`
fails and the failure propagates out of the load effect (the code has no
`try`/`catch`), instead of falling back to defaults silently as the spec
requires. -/
theorem load_throws_on_malformed_saved_json :
    loadOnStartup malformedStore initialAppState
      = Except.error LoadError.syntaxError := rfl

/-- C8: when neither storage key is present, the startup load succeeds and
leaves the state at the defaults: empty saved list and all-zero stats. -/
theorem default_load (st : LocalStorage)
    (h1 : getItem st keySaved = none) (h2 : getItem st keyStats = none) :
    loadOnStartup st initialAppState = Except.ok initialAppState ∧
      initialAppState.savedGrammar = [] ∧
      initialAppState.studyStats =
        { quizStats := { correct := 0, total := 0, streak := 0, bestStreak := 0 }
          studyTime := 0
          grammarMastered := 0 } := by
  refine ⟨?_, rfl, rfl⟩
  simp [loadOnStartup, loadSavedStep, loadStatsStep, h1, h2]

/-- Witness for C8 at the empty store. -/
theorem default_load_witness :
    (getItem ([] : LocalStorage) keySaved = none ∧
        getItem ([] : LocalStorage) keyStats = none) ∧
      (loadOnStartup ([] : LocalStorage) initialAppState
          = Except.ok initialAppState ∧
        initialAppState.savedGrammar = [] ∧
        initialAppState.studyStats =
          { quizStats := { correct := 0, total := 0, streak := 0, bestStreak := 0 }
            studyTime := 0
            grammarMastered := 0 }) :=
  ⟨⟨rfl, rfl⟩, default_load ([] : LocalStorage) rfl rfl⟩

theorem string_mk_data (s : String) : String.mk s.data = s := rfl

theorem parseCore_succ (fuel : Nat) (m : PMode) (cs : List Char) :
    parseCore (fuel + 1) m cs = parseCoreStep (parseCore fuel) m cs := rfl

theorem parseStringBody_escape (s : List Char) (rest : List Char) :
    parseStringBody (escapeChars s ++ (qc :: rest)) = some (s, rest) := by
  induction s with
  | nil =>
    show parseStringBody (qc :: rest) = some ([], rest)
    rw [parseStringBody.eq_def]
    simp
  | cons c cs ih =>
    have hstep : escapeChars (c :: cs) = escapeChar c ++ escapeChars cs := by
      simp [escapeChars]
    rw [hstep, List.append_assoc]
    by_cases hq : c = qc
    · subst hq
      have h1 : escapeChar qc = [bs, qc] := by simp [escapeChar]
      rw [h1]
      show parseStringBody (bs :: (qc :: (escapeChars cs ++ qc :: rest))) = _
      rw [parseStringBody.eq_def]
      simp [ih, show ¬(bs = qc) from by decide]
    · by_cases hb : c = bs
      · subst hb
        have h1 : escapeChar bs = [bs, bs] := by
          simp [escapeChar, show ¬(bs = qc) from by decide]
        rw [h1]
        show parseStringBody (bs :: (bs :: (escapeChars cs ++ qc :: rest))) = _
        rw [parseStringBody.eq_def]
        simp [ih, show ¬(bs = qc) from by decide]
      · have h1 : escapeChar c = [c] := by simp [escapeChar, hq, hb]
        rw [h1]
        show parseStringBody (c :: (escapeChars cs ++ qc :: rest)) = _
        rw [parseStringBody.eq_def]
        simp [ih, hq, hb]

theorem parseCore_val_string (fuel : Nat) (s : String) (rest : List Char) :
    parseCore (fuel + 1) PMode.val (stringifyString s ++ rest)
      = some (PRes.v (Json.jstr s), rest) := by
  rw [parseCore_succ]
  show parseCoreStep (parseCore fuel) PMode.val
      (qc :: ((escapeChars s.data ++ [qc]) ++ rest)) = _
  have h1 : (escapeChars s.data ++ [qc]) ++ rest
      = escapeChars s.data ++ (qc :: rest) := by
    rw [List.append_assoc]; rfl
  simp only [parseCoreStep]
  simp [h1, parseStringBody_escape, string_mk_data]
  rw [if_neg (by decide), if_neg (by decide), if_neg (by decide)]

theorem parseCore_members_one (fuel : Nat) (k v : String) (rest : List Char) :
    parseCore (fuel + 2) PMode.members
        (stringifyString k ++ (':' :: (stringifyString v ++ (rbrace :: rest))))
      = some (PRes.ms [(k, Json.jstr v)], rest) := by
  show parseCore ((fuel + 1) + 1) PMode.members
      (qc :: ((escapeChars k.data ++ [qc]) ++
        (':' :: (stringifyString v ++ (rbrace :: rest))))) = _
  rw [parseCore_succ]
  have hassoc : (escapeChars k.data ++ [qc]) ++
      (':' :: (stringifyString v ++ (rbrace :: rest)))
      = escapeChars k.data ++
        (qc :: (':' :: (stringifyString v ++ (rbrace :: rest)))) := by
    simp
  simp only [parseCoreStep, if_true]
  rw [hassoc, parseStringBody_escape]
  simp [parseCore_val_string, string_mk_data]

theorem parseCore_members_cons (fuel : Nat) (k v : String)
    (tail rest : List Char) (ms : List (String × Json))
    (h : parseCore (fuel + 1) PMode.members tail = some (PRes.ms ms, rest)) :
    parseCore (fuel + 2) PMode.members
        (stringifyString k ++ (':' :: (stringifyString v ++ (',' :: tail))))
      = some (PRes.ms ((k, Json.jstr v) :: ms), rest) := by
  show parseCore ((fuel + 1) + 1) PMode.members
      (qc :: ((escapeChars k.data ++ [qc]) ++
        (':' :: (stringifyString v ++ (',' :: tail))))) = _
  rw [parseCore_succ]
  have hassoc : (escapeChars k.data ++ [qc]) ++
      (':' :: (stringifyString v ++ (',' :: tail)))
      = escapeChars k.data ++
        (qc :: (':' :: (stringifyString v ++ (',' :: tail)))) := by
    simp
  simp only [parseCoreStep, if_true]
  rw [hassoc, parseStringBody_escape]
  simp [parseCore_val_string, string_mk_data, h,
    show ¬(',' = rbrace) from by decide]

theorem parseCore_val_obj2 (fuel : Nat) (k1 v1 k2 v2 : String)
    (rest : List Char) :
    parseCore (fuel + 4) PMode.val
        (lbrace :: (stringifyString k1 ++ (':' :: (stringifyString v1 ++
          (',' :: (stringifyString k2 ++ (':' :: (stringifyString v2 ++
            (rbrace :: rest)))))))))
      = some (PRes.v (Json.jobj [(k1, Json.jstr v1), (k2, Json.jstr v2)]),
          rest) := by
  have hone : parseCore (fuel + 2) PMode.members
      (stringifyString k2 ++ (':' :: (stringifyString v2 ++ (rbrace :: rest))))
      = some (PRes.ms [(k2, Json.jstr v2)], rest) :=
    parseCore_members_one fuel k2 v2 rest
  have hm : parseCore (fuel + 3) PMode.members
      (stringifyString k1 ++ (':' :: (stringifyString v1 ++
        (',' :: (stringifyString k2 ++ (':' :: (stringifyString v2 ++
          (rbrace :: rest))))))))
      = some (PRes.ms [(k1, Json.jstr v1), (k2, Json.jstr v2)], rest) :=
    parseCore_members_cons (fuel + 1) k1 v1 _ rest _ hone
  have hT : stringifyString k1 ++ (':' :: (stringifyString v1 ++
      (',' :: (stringifyString k2 ++ (':' :: (stringifyString v2 ++
        (rbrace :: rest)))))))
      = qc :: ((escapeChars k1.data ++ [qc]) ++ (':' :: (stringifyString v1 ++
          (',' :: (stringifyString k2 ++ (':' :: (stringifyString v2 ++
            (rbrace :: rest)))))))) := rfl
  show parseCore ((fuel + 3) + 1) PMode.val _ = _
  rw [parseCore_succ]
  simp only [parseCoreStep]
  rw [if_neg (show ¬ lbrace = 't' from by decide),
    if_neg (show ¬ lbrace = 'f' from by decide),
    if_neg (show ¬ lbrace = qc from by decide),
    if_neg (show ¬ lbrace = '[' from by decide),
    if_neg (show ¬ lbrace = 'n' from by decide), if_true]
  rw [hT]
  simp only []
  rw [if_neg (show ¬ qc = rbrace from by decide), ← hT, hm]

theorem parseCore_val_point (fuel : Nat) (p : GrammarPoint)
    (rest : List Char) :
    parseCore (fuel + 4) PMode.val (stringifyPoint p ++ rest)
      = some (PRes.v (pointDoc p), rest) := by
  have hshape : stringifyPoint p ++ rest
      = lbrace :: (stringifyString "id" ++ (':' :: (stringifyString p.id ++
          (',' :: (stringifyString "content" ++ (':' ::
            (stringifyString p.content ++ (rbrace :: rest)))))))) := by
    simp [stringifyPoint]
  rw [hshape]
  exact parseCore_val_obj2 fuel "id" p.id "content" p.content rest

theorem parseCore_elems_points (l : List GrammarPoint) (p : GrammarPoint)
    (fuel : Nat) (rest : List Char) :
    parseCore (fuel + 5 * (p :: l).length) PMode.elems
        (stringifySavedElems (p :: l) ++ (']' :: rest))
      = some (PRes.es ((p :: l).map pointDoc), rest) := by
  induction l generalizing p fuel rest with
  | nil =>
    have h1 : fuel + 5 * ([p] : List GrammarPoint).length = (fuel + 4) + 1 := by
      simp
    have h2 : stringifySavedElems [p] = stringifyPoint p := rfl
    rw [h1, h2, parseCore_succ]
    simp only [parseCoreStep]
    rw [parseCore_val_point]
    rfl
  | cons q l ih =>
    have hsh : stringifySavedElems (p :: q :: l) ++ (']' :: rest)
        = stringifyPoint p ++
          (',' :: (stringifySavedElems (q :: l) ++ (']' :: rest))) := by
      have h0 : stringifySavedElems (p :: q :: l)
          = stringifyPoint p ++ ',' :: stringifySavedElems (q :: l) := rfl
      rw [h0]
      simp
    have harith : fuel + 5 * ((p :: q :: l) : List GrammarPoint).length
        = ((fuel + 5 * ((q :: l) : List GrammarPoint).length) + 4) + 1 := by
      simp only [List.length_cons]
      ring
    rw [hsh, harith, parseCore_succ]
    simp only [parseCoreStep]
    rw [parseCore_val_point]
    simp only []
    have hple : (fuel + 5 * ((q :: l) : List GrammarPoint).length) + 4
        = (fuel + 4) + 5 * ((q :: l) : List GrammarPoint).length := by ring
    rw [hple, ih]
    rfl

theorem stringifyPoint_length (p : GrammarPoint) :
    3 ≤ (stringifyPoint p).length := by
  simp [stringifyPoint, stringifyString]
  omega

theorem stringifySavedElems_length (l : List GrammarPoint) :
    3 * l.length ≤ (stringifySavedElems l).length := by
  induction l with
  | nil => simp [stringifySavedElems]
  | cons p ps ih =>
    cases ps with
    | nil => simpa using stringifyPoint_length p
    | cons q qs =>
      have h0 : stringifySavedElems (p :: q :: qs)
          = stringifyPoint p ++ ',' :: stringifySavedElems (q :: qs) := rfl
      rw [h0]
      have h1 := stringifyPoint_length p
      have h2 := ih
      simp only [List.length_append, List.length_cons] at h1 h2 ⊢
      omega

theorem jsonParse_stringifySaved (l : List GrammarPoint) :
    jsonParse (stringifySaved l) = some (Json.jarr (l.map pointDoc)) := by
  cases l with
  | nil => rfl
  | cons p ps =>
    obtain ⟨T, hT⟩ : ∃ T, stringifySavedElems (p :: ps) = lbrace :: T := by
      cases ps with
      | nil => exact ⟨_, rfl⟩
      | cons q qs => exact ⟨_, rfl⟩
    unfold jsonParse
    have hdata : (stringifySaved (p :: ps)).data
        = '[' :: (stringifySavedElems (p :: ps) ++ [']']) := rfl
    rw [hdata]
    obtain ⟨fuel, hfuel⟩ : ∃ fuel,
        2 * ('[' :: (stringifySavedElems (p :: ps) ++ [']'])).length + 2
          = (fuel + 5 * ((p :: ps) : List GrammarPoint).length) + 1 := by
      refine ⟨2 * ('[' :: (stringifySavedElems (p :: ps) ++ [']'])).length + 1
        - 5 * ((p :: ps) : List GrammarPoint).length, ?_⟩
      have hb := stringifySavedElems_length (p :: ps)
      simp only [List.length_cons, List.length_append] at hb ⊢
      omega
    rw [hfuel, parseCore_succ]
    simp only [parseCoreStep]
    rw [if_neg (show ¬ '[' = 'n' from by decide),
      if_neg (show ¬ '[' = 't' from by decide),
      if_neg (show ¬ '[' = 'f' from by decide),
      if_neg (show ¬ '[' = qc from by decide), if_true]
    have hcons : stringifySavedElems (p :: ps) ++ [']']
        = lbrace :: (T ++ [']']) := by
      rw [hT]
      rfl
    rw [parseCore_elems_points, hcons]
    rfl

theorem decodePoint_pointDoc (p : GrammarPoint) :
    decodePoint (pointDoc p) = some p := by
  simp [decodePoint, pointDoc]

theorem decodePoints_map (l : List GrammarPoint) :
    decodePoints (l.map pointDoc) = some l := by
  induction l with
  | nil => rfl
  | cons p ps ih => simp [decodePoints, decodePoint_pointDoc, ih]

theorem decodeSavedGrammar_arr (l : List GrammarPoint) :
    decodeSavedGrammar (Json.jarr (l.map pointDoc)) = some l := by
  simp [decodeSavedGrammar, decodePoints_map]

theorem getItem_setItem (st : LocalStorage) (k v : String) :
    getItem (setItem st k v) k = some v := by
  simp [getItem, setItem, List.find?]

theorem stringifySaved_ne_empty (l : List GrammarPoint) :
    ¬ (stringifySaved l = "") := by
  intro h
  have h2 := congrArg String.data h
  simp [stringifySaved] at h2

/-- C7: persisting a saved-grammar list and loading the store back yields
exactly the same list — same elements, same order, nothing added. -/
theorem saved_grammar_round_trip (S : List GrammarPoint)
    (st : LocalStorage) (s : AppState) :
    loadSavedStep (persistSavedGrammar S st) s
      = Except.ok { s with savedGrammar := S } := by
  simp [loadSavedStep, persistSavedGrammar, getItem_setItem,
    stringifySaved_ne_empty, jsonParse_stringifySaved, decodeSavedGrammar_arr]

end KoreanMagic
